import Mathlib

/-!
# Verification of the wallet-agent receipt assistant

A shallow embedding, in Lean 4, of the core of the wallet-agent repository:
the receipt fetch/filter adapter (`backend/firestudio/firebase.py`,
`ai_pipeline/analysis_tools.py`), the deterministic analytics functions
(`ai_pipeline/analysis_tools.py`), and the LLM tool-calling orchestration
loop (`ai_pipeline/pipeline.py`, `ReceiptChatAssistant.process_query`).

Modelling conventions, used throughout:

* Python floats are embedded as exact rationals (`ℚ`); float literals such
  as `0.1`, `0.2` and `1.2` appear as the rationals `1/10`, `1/5`, `6/5`.
  Floating-point rounding is not modelled.
* Calendar dates (the `'%Y-%m-%d'` strings that the analytics functions
  parse with `datetime.strptime`) are embedded as integer day numbers
  (`ℤ`); subtracting two parsed dates and taking `.days` is then integer
  subtraction.  `datetime.now()` becomes an explicit `today : ℤ` argument.
* `statistics.stdev` returns the non-negative square root of the sample
  variance, which is usually irrational.  We therefore compute the sample
  variance (`sampleVar`) and either (a) encode a comparison
  `stdev < t` as `sqrtLt (sampleVar xs) t` — justified by `sqrtLt_iff` —
  or (b) pass the standard deviation as an explicit argument constrained
  by the hypotheses `0 ≤ sd` and `sd ^ 2 = sampleVar xs`.
* The Firestore collection is embedded as a total map
  `Store : String → List Receipt` from user id to that user's receipt
  documents.  The `try/except` in `_fetch_receipts` that turns store
  failures into `[]` is not reachable in this total model.
* Python exceptions raised by tool functions are embedded as
  `Except String` values; the orchestrator's `try/except` around a tool
  call is the `Except` case split.
-/

namespace WalletAgent

/-! ## Python string helpers

`str.lower` and `str.strip` as used on item names, and the substring test
`needle in hay`.  (Lean's own `String.toLower` does not reduce in the
kernel, so we map `Char.toLower` over the character list directly.) -/

/-- Python `str.lower` (ASCII case mapping suffices for the item names the
analytics code compares). -/
def pyLower (s : String) : String := ⟨s.data.map Char.toLower⟩

/-- The whitespace characters `str.strip` removes. -/
def isPySpace (c : Char) : Bool := c = ' ' ∨ c = '\t' ∨ c = '\n' ∨ c = '\r'

/-- Python `str.strip`: drop whitespace from both ends. -/
def pyStrip (s : String) : String :=
  ⟨((s.data.dropWhile isPySpace).reverse.dropWhile isPySpace).reverse⟩

/-- Python's normalisation `name.lower().strip()` used on item names. -/
def normName (s : String) : String := pyStrip (pyLower s)

/-- Python `needle in hay` for strings: substring containment. -/
def strContains (hay needle : String) : Bool :=
  hay.data.tails.any (fun t => needle.data.isPrefixOf t)

/-- Python truthiness of an optional string (`None` and `""` are falsy). -/
def truthyStr : Option String → Bool
  | some s => s ≠ ""
  | none => false

/-! ## Python numeric helpers -/

/-- Python `int()` on a float/rational: truncation toward zero. -/
def pyInt (q : ℚ) : ℤ := if 0 ≤ q then ⌊q⌋ else -⌊-q⌋

/-- Python `round()` to an integer: round half to even (banker's rounding). -/
def pyRound (q : ℚ) : ℤ :=
  let f := ⌊q⌋
  let r := q - f
  if r < 1/2 then f
  else if 1/2 < r then f + 1
  else if f % 2 = 0 then f else f + 1

/-! ## Statistics (translated from CPython's `statistics` module)

`mean`, the sample variance underlying `stdev`, and `quantiles` with the
default `method='exclusive'` as called with `n=100`.  The callers below
always guard the preconditions under which CPython would raise
`StatisticsError` (`mean` on `[]`, `stdev` with fewer than 2 points,
`quantiles` with fewer than 2 points), so the Lean functions are total;
at those unreachable inputs they return the junk value `0`. -/

/-- `statistics.mean` (callers guard against the empty list). -/
def mean (l : List ℚ) : ℚ := l.sum / l.length

/-- The sample variance `Σ (x - x̄)² / (n - 1)`: the square of
`statistics.stdev` (callers guard `n ≥ 2`). -/
def sampleVar (l : List ℚ) : ℚ :=
  (l.map (fun x => (x - mean l) ^ 2)).sum / ((l.length : ℚ) - 1)

/-- The comparison `Real.sqrt v < t` (for `0 ≤ v`) encoded without square
roots, so that it stays decidable over `ℚ`: see `sqrtLt_iff`. -/
def sqrtLt (v t : ℚ) : Bool := decide (0 < t) && decide (v < t ^ 2)

/-! ## Stable sorting

Python's `sorted`/`list.sort` is a stable sort; any stable sort agrees
with it extensionally, so we use a stable insertion sort.  `le y x = true`
means `y` may stay in front of `x`; an element is inserted behind every
element it may stay behind, which preserves the original order of
elements the key cannot distinguish — exactly CPython's stability. -/

def insOrd (le : α → α → Bool) (x : α) : List α → List α
  | [] => [x]
  | y :: ys => if le y x then y :: insOrd le x ys else x :: y :: ys

/-- Stable sort by the boolean relation `le` (Python `sorted`). -/
def stableSort (le : α → α → Bool) (l : List α) : List α :=
  l.foldl (fun acc x => insOrd le x acc) []

/-! ## Data model

A receipt document as the analytics layer consumes it: the Firestore
`to_dict` mappings.  `vendor_name` and `category` keep Python's
"missing key" (`dict.get` → `None`) as `Option`; `amount` and an item's
`price` carry their `get(·, 0)` default applied (the code never
distinguishes a missing amount from `0`); `date` is the parsed
`receipt['date']` as a day number (the functions under study raise on a
receipt without a parseable date, so the model assumes one is present). -/

structure ReceiptItem where
  name : String
  price : ℚ
  deriving DecidableEq

structure Receipt where
  vendor_name : Option String
  category : Option String
  date : ℤ
  amount : ℚ
  items : List ReceiptItem
  deriving DecidableEq

/-! ## The store and the fetch/filter adapter

`FirebaseClient.get_receipts_by_timerange` (firebase.py lines 112–137):
the `where`-clauses on `date_time` are commented out in the source, so
the function streams the user's whole `receipts` collection and the
`start_timestamp`/`end_timestamp` parameters are dead.  (The per-document
`receipt_id` field it adds is not part of the analytics data model.)
`_fetch_receipts` (analysis_tools.py lines 14–43) then applies the
optional category / vendor / amount-condition filters. -/

/-- The backing store: each user's receipt documents, in stream order. -/
def Store : Type := String → List Receipt

/-- `FirebaseClient.get_receipts_by_timerange`: the time-range arguments
are accepted but unused (the range `where`-clauses are commented out). -/
def get_receipts_by_timerange (store : Store) (user_id : String)
    (start_timestamp end_timestamp : Option String) : List Receipt :=
  store user_id

/-- The `amount_condition` mapping `{operator, value}`:
`cond.get("operator")` and `float(cond.get("value", 0))`. -/
structure AmountCondition where
  operator : Option String
  value : ℚ
  deriving DecidableEq

/-- The query-parameter mapping `_fetch_receipts` reads with `params.get`. -/
structure FetchParams where
  start_date : Option String := none
  end_date : Option String := none
  category : Option String := none
  vendor_name : Option String := none
  amount_condition : Option AmountCondition := none
  deriving DecidableEq

/-- `_fetch_receipts`: fetch by (ignored) time range, then filter by
category equality, vendor equality and the amount condition; an
unrecognised operator leaves the list unchanged.  The `if params.get(…)`
guards use Python truthiness, so an empty-string filter value is skipped. -/
def _fetch_receipts (store : Store) (user_id : String) (params : FetchParams) :
    List Receipt :=
  let receipts := get_receipts_by_timerange store user_id
    params.start_date params.end_date
  let receipts := if truthyStr params.category then
      receipts.filter (fun r => r.category = params.category)
    else receipts
  let receipts := if truthyStr params.vendor_name then
      receipts.filter (fun r => r.vendor_name = params.vendor_name)
    else receipts
  match params.amount_condition with
  | none => receipts
  | some cond =>
      if cond.operator = some "gt" then
        receipts.filter (fun r => cond.value < r.amount)
      else if cond.operator = some "lt" then
        receipts.filter (fun r => r.amount < cond.value)
      else if cond.operator = some "eq" then
        receipts.filter (fun r => r.amount = cond.value)
      else receipts

/-- Shorthand: the parameter mapping `{"start_date": s, "end_date": e}`
that most analytics functions pass to `_fetch_receipts`. -/
def datesOnly (s e : Option String) : FetchParams :=
  { start_date := s, end_date := e }

/-- A small concrete store used by several witnesses. -/
def rcptX : Receipt :=
  { vendor_name := some "X", category := some "grocery", date := 100,
    amount := 50, items := [] }

def storeX : Store := fun u => if u = "u1" then [rcptX] else []

/-- The `'%Y-%m-%d'` rendering of a window endpoint.  The store ignores
the rendered dates (`get_receipts_by_timerange`), so the exact text is
immaterial; we render the day number. -/
def dateStr (d : ℤ) : String := toString d

/-! ## Shared list helpers -/

/-- Deduplication keeping the FIRST occurrence of each element, in order:
the iteration order of a Python `dict`/`Counter` built by insertion. -/
def firstDedup [DecidableEq α] (l : List α) : List α :=
  l.foldl (fun acc x => if x ∈ acc then acc else acc ++ [x]) []

/-- Day gaps between consecutive entries of a date list
(`[(d[i+1] - d[i]).days for i in range(len(d)-1)]`). -/
def dayGaps (dates : List ℤ) : List ℚ :=
  (dates.zip dates.tail).map (fun p => ((p.2 - p.1 : ℤ) : ℚ))

/-- `min(l)` for the non-empty lists the callers guard. -/
def pyMin (l : List ℚ) : ℚ := l.min?.getD 0

/-- `max(l)` for the non-empty lists the callers guard. -/
def pyMax (l : List ℚ) : ℚ := l.max?.getD 0

/-! ## `get_frequently_purchased_items` (analysis_tools.py lines 247–283) -/

/-- The (normalised name, price) pairs the counting loop visits, in
receipt order: per item, `item.get('name', '').lower().strip()` must be
non-empty; the price appended is `item.get('price', 0)`. -/
def namePricePairs (receipts : List Receipt) : List (String × ℚ) :=
  receipts.flatMap (fun r => r.items.filterMap (fun it =>
    let n := normName it.name
    if n = "" then none else some (n, it.price)))

/-- The multiset of counted names, in order (`item_counter`'s content). -/
def normNames (receipts : List Receipt) : List String :=
  (namePricePairs receipts).map Prod.fst

/-- The prices recorded for one normalised name, in order
(`item_details[item_name]["prices"]`). -/
def pricesOf (receipts : List Receipt) (key : String) : List ℚ :=
  ((namePricePairs receipts).filter (fun p => p.1 = key)).map Prod.snd

/-- One element of the `get_frequently_purchased_items` result.
`price_variance_sq` is the square of the reported `price_variance`
(which is `statistics.stdev(prices)` when `len(prices) > 1`, else `0`);
we store the square because the standard deviation itself is usually
irrational (see the header notes). -/
structure FrequentItem where
  item : String
  purchase_count : ℕ
  total_spent : ℚ
  average_price : ℚ
  price_variance_sq : ℚ
  deriving DecidableEq

/-- The result entry built for one counter key. -/
def mkFrequentItem (receipts : List Receipt) (key : String) : FrequentItem :=
  let prices := pricesOf receipts key
  { item := key
    purchase_count := (normNames receipts).count key
    total_spent := prices.sum
    average_price := if prices = [] then 0 else mean prices
    price_variance_sq := if 1 < prices.length then sampleVar prices else 0 }

/-- `get_frequently_purchased_items`: count items by normalised name,
keep the names counted at least `min_frequency` times, and sort the
entries by purchase count, descending. -/
def get_frequently_purchased_items (store : Store) (min_frequency : ℤ)
    (start_date end_date : String) (user_id : String) : List FrequentItem :=
  let receipts := _fetch_receipts store user_id
    (datesOnly (some start_date) (some end_date))
  let frequent := ((firstDedup (normNames receipts)).filter
      (fun k => min_frequency ≤ ((normNames receipts).count k : ℤ))).map
    (mkFrequentItem receipts)
  stableSort (fun a b => decide (b.purchase_count ≤ a.purchase_count)) frequent

/-! ## `detect_unusual_spending` (analysis_tools.py lines 661–700) -/

structure UnusualEntry where
  date : ℤ
  vendor : Option String
  amount : ℚ
  category : Option String
  deviation : ℚ
  percentage_above_average : ℚ
  deriving DecidableEq

/-- The reported entry for one receipt above the threshold (`sd` is
`statistics.stdev(amounts)`; the guards `stdev_amount > 0` and
`mean_amount > 0` are the code's division-by-zero defaults). -/
def mkUnusualEntry (mean_amount sd : ℚ) (r : Receipt) : UnusualEntry :=
  { date := r.date
    vendor := r.vendor_name
    amount := r.amount
    category := r.category
    deviation := if 0 < sd then (r.amount - mean_amount) / sd else 0
    percentage_above_average :=
      if 0 < mean_amount then (r.amount - mean_amount) / mean_amount * 100
      else 0 }

/-- `detect_unusual_spending`.  `sd` stands for the code's
`statistics.stdev(amounts)`, passed explicitly because that square root
is usually irrational; the theorems constrain it by `0 ≤ sd` and
`sd ^ 2 = sampleVar amounts` (see the header notes). -/
def detect_unusual_spending (store : Store) (sd : ℚ) (sensitivity : ℚ)
    (days_back : ℤ) (today : ℤ) (user_id : String) : List UnusualEntry :=
  let receipts := _fetch_receipts store user_id
    (datesOnly (some (dateStr (today - days_back))) (some (dateStr today)))
  if receipts.length < 3 then []
  else
    let amounts := receipts.map (·.amount)
    let mean_amount := mean amounts
    let threshold := mean_amount + sensitivity * sd
    stableSort (fun a b => decide (b.amount ≤ a.amount))
      ((receipts.filter (fun r => threshold < r.amount)).map
        (mkUnusualEntry mean_amount sd))

/-! ## `check_inventory_status` (analysis_tools.py lines 285–345) -/

structure InventoryEntry where
  last_purchased : Option ℤ
  days_since_purchase : Option ℤ
  purchase_count : ℕ
  average_purchase_interval : Option ℚ
  needs_replenishment : Option Bool
  deriving DecidableEq

/-- The purchase dates collected for one requested item: one entry per
receipt item whose lower-cased name contains `item_lower`, in receipt
order (a receipt with several matching items contributes its date once
per match, exactly as the nested loop appends). -/
def purchaseDatesFor (receipts : List Receipt) (item_lower : String) : List ℤ :=
  receipts.flatMap (fun r => r.items.filterMap (fun it =>
    if strContains (pyLower it.name) item_lower then some r.date else none))

/-- The status mapping built for one requested item name. -/
def inventoryEntryFor (today : ℤ) (receipts : List Receipt)
    (item_name : String) : InventoryEntry :=
  let dates := purchaseDatesFor receipts (normName item_name)
  match dates.max? with
  | none =>
      { last_purchased := none, days_since_purchase := none,
        purchase_count := 0, average_purchase_interval := none,
        needs_replenishment := none }
  | some last =>
      let days_since := today - last
      let avg : Option ℚ :=
        if 1 < dates.length then
          some (mean (dayGaps (stableSort (fun a b => decide (a ≤ b)) dates)))
        else none
      { last_purchased := some last
        days_since_purchase := some days_since
        purchase_count := dates.length
        average_purchase_interval := avg
        -- `days_since > (avg_interval * 1.2) if avg_interval else False`:
        -- Python truthiness makes both `None` and `0` fall to `False`.
        needs_replenishment := some (match avg with
          | some a => if a ≠ 0 then decide (a * (6/5) < (days_since : ℚ))
              else false
          | none => false) }

/-- `check_inventory_status` over the (nominal) last-90-days window;
the result dict is keyed by the requested names in order. -/
def check_inventory_status (store : Store) (today : ℤ)
    (item_names : List String) (user_id : String) :
    List (String × InventoryEntry) :=
  let receipts := _fetch_receipts store user_id
    (datesOnly (some (dateStr (today - 90))) (some (dateStr today)))
  item_names.map (fun n => (n, inventoryEntryFor today receipts n))

/-! ## `detect_recurring_subscriptions` (analysis_tools.py lines 349–414) -/

structure Tx where
  date : ℤ
  amount : ℚ
  deriving DecidableEq

structure Subscription where
  vendor : String
  estimated_monthly_cost : ℚ
  transaction_count : ℕ
  average_interval_days : ℚ
  last_charge : ℤ
  next_expected_charge : ℤ
  deriving DecidableEq

/-- The `(vendor, transaction)` pairs the grouping loop visits: receipts
with a truthy `vendor_name`, in order. -/
def vendorTxPairs (receipts : List Receipt) : List (String × Tx) :=
  receipts.filterMap (fun r => match r.vendor_name with
    | some v => if v = "" then none else some (v, ⟨r.date, r.amount⟩)
    | none => none)

/-- The transactions of one vendor, in receipt order. -/
def txsOf (receipts : List Receipt) (v : String) : List Tx :=
  ((vendorTxPairs receipts).filter (fun p => p.1 = v)).map Prod.snd

/-- The subscription entry for one vendor, if the vendor's transactions
classify as one.  Comparisons against the standard deviations are the
`sqrtLt` encoding of `stdev < bound` (see `sqrtLt_iff`). -/
def subscriptionFor (receipts : List Receipt) (v : String) :
    Option Subscription :=
  let txs := txsOf receipts v
  if txs.length < 2 then none
  else
    let sorted := stableSort (fun a b => decide (a.date ≤ b.date)) txs
    let amounts := sorted.map (·.amount)
    let avg_amount := mean amounts
    let amountVarSq := if 1 < amounts.length then sampleVar amounts else 0
    let intervals := dayGaps (sorted.map (·.date))
    if intervals = [] then none
    else
      let avg_interval := mean intervals
      let intervalVarSq :=
        if 1 < intervals.length then sampleVar intervals else 0
      let is_likely_subscription :=
        sqrtLt amountVarSq (avg_amount * (1/10)) &&
        sqrtLt intervalVarSq (avg_interval * (1/5)) &&
        decide (25 ≤ avg_interval) && decide (avg_interval ≤ 35)
      if is_likely_subscription then
        let last := (sorted.getLastD ⟨0, 0⟩).date
        some { vendor := v
               estimated_monthly_cost := avg_amount
               transaction_count := txs.length
               average_interval_days := avg_interval
               last_charge := last
               next_expected_charge := last + pyInt avg_interval }
      else none

/-- `detect_recurring_subscriptions` over the (nominal) last-90-days
window. -/
def detect_recurring_subscriptions (store : Store) (today : ℤ)
    (user_id : String) : List Subscription :=
  let receipts := _fetch_receipts store user_id
    (datesOnly (some (dateStr (today - 90))) (some (dateStr today)))
  (firstDedup ((vendorTxPairs receipts).map Prod.fst)).filterMap
    (subscriptionFor receipts)

/-- The next expected charge as the spec words it (§4.2): last charge
date plus `round`(mean interval) days.  The code instead truncates with
`int(avg_interval)`; this definition exists to state that difference. -/
def nextExpectedSpec (last : ℤ) (avg_interval : ℚ) : ℤ :=
  last + pyRound avg_interval

/-- The `is_likely_subscription` test of `subscriptionFor`, as a named
predicate on a vendor's transaction list (for stating the classification
claim): amount stdev below 10% of the mean amount, interval stdev below
20% of the mean interval, and mean interval in `[25, 35]`. -/
def isLikelySubscription (txs : List Tx) : Bool :=
  let sorted := stableSort (fun a b => decide (a.date ≤ b.date)) txs
  let amounts := sorted.map (·.amount)
  let intervals := dayGaps (sorted.map (·.date))
  sqrtLt (if 1 < amounts.length then sampleVar amounts else 0)
      (mean amounts * (1/10)) &&
    sqrtLt (if 1 < intervals.length then sampleVar intervals else 0)
      (mean intervals * (1/5)) &&
    decide (25 ≤ mean intervals) && decide (mean intervals ≤ 35)

/-- The subscription record `subscriptionFor` builds for a classified
vendor, as a named value (for stating the field claims). -/
def subEntry (receipts : List Receipt) (v : String) : Subscription :=
  let txs := txsOf receipts v
  let sorted := stableSort (fun a b => decide (a.date ≤ b.date)) txs
  let intervals := dayGaps (sorted.map (·.date))
  { vendor := v
    estimated_monthly_cost := mean (sorted.map (·.amount))
    transaction_count := txs.length
    average_interval_days := mean intervals
    last_charge := (sorted.getLastD ⟨0, 0⟩).date
    next_expected_charge :=
      (sorted.getLastD ⟨0, 0⟩).date + pyInt (mean intervals) }

/-! ## `find_savings_opportunities` (analysis_tools.py lines 416–472) -/

structure PriceObs where
  price : ℚ
  vendor : Option String
  date : ℤ
  deriving DecidableEq

structure SavingsOpportunity where
  item : String
  average_price : ℚ
  lowest_price : ℚ
  highest_price : ℚ
  threshold_price : ℚ
  potential_savings_per_purchase : ℚ
  high_price_vendors : List String
  deriving DecidableEq

structure SavingsResult where
  category : String
  total_opportunities : ℕ
  opportunities : List SavingsOpportunity
  deriving DecidableEq

/-- The `(normalised item name, price observation)` pairs the collection
loop visits: name non-empty and price truthy (`item.get('price')`
non-zero), in receipt order. -/
def itemObsPairs (receipts : List Receipt) : List (String × PriceObs) :=
  receipts.flatMap (fun r => r.items.filterMap (fun it =>
    let n := normName it.name
    if n = "" ∨ it.price = 0 then none
    else some (n, ⟨it.price, r.vendor_name, r.date⟩)))

/-- The price observations of one normalised item name, in order. -/
def obsOf (receipts : List Receipt) (key : String) : List PriceObs :=
  ((itemObsPairs receipts).filter (fun p => p.1 = key)).map Prod.snd

/-- CPython `statistics.quantiles(data, n=100)` with the default
`method='exclusive'`: the 99 cut points, computed on the ascending sort
of the data with `j, delta = divmod(i * (len+1), 100)` and `j` clamped
to `[1, len-1]` (callers guard `len ≥ 2`). -/
def quantiles100 (data : List ℚ) : List ℚ :=
  let d := stableSort (fun a b => decide (a ≤ b)) data
  let ld := d.length
  (List.range' 1 99).map (fun i =>
    let j0 := i * (ld + 1) / 100
    let δ := i * (ld + 1) % 100
    let j := if j0 < 1 then 1 else if ld - 1 < j0 then ld - 1 else j0
    (d.getD (j - 1) 0 * ((100 - δ : ℕ) : ℚ) + d.getD j 0 * (δ : ℚ)) / 100)

/-- Python list indexing `xs[i]`, with negative-index semantics and an
`IndexError` outside the valid range. -/
def pyIndex (l : List ℚ) (i : ℤ) : Except String ℚ :=
  if 0 ≤ i ∧ i < l.length then .ok (l.getD i.toNat 0)
  else if -(l.length : ℤ) ≤ i ∧ i < 0 then
    .ok (l.getD (l.length + i).toNat 0)
  else .error "IndexError: list index out of range"

/-- The opportunity entry for one item name, or `none` when the item has
fewer than 3 observations or no observation above the threshold; the
percentile lookup `quantiles(...)[percentile_threshold - 1]` can raise.
`high_price_vendors` is `list(set(...))` in the source; a Python set's
iteration order is not meaningful, we keep first occurrences. -/
def oppForItem (percentile_threshold : ℤ) (key : String)
    (price_data : List PriceObs) : Except String (Option SavingsOpportunity) :=
  if price_data.length < 3 then .ok none
  else
    let prices := price_data.map (·.price)
    match pyIndex (quantiles100 prices) (percentile_threshold - 1) with
    | .error e => .error e
    | .ok threshold_price =>
    let high := price_data.filter (fun p => threshold_price < p.price)
    if high = [] then .ok none
    else .ok <| some
      { item := key
        average_price := mean prices
        lowest_price := pyMin prices
        highest_price := pyMax prices
        threshold_price := threshold_price
        potential_savings_per_purchase :=
          mean (high.map (·.price)) - mean prices
        high_price_vendors :=
          firstDedup (high.filterMap (·.vendor)) }

/-- The value `oppForItem` yields when the percentile lookup is in
range (a named restatement for the claim theorems): the threshold is the
`percentile_threshold`-th of the 99 cut points, the flagged observations
are those strictly above it, and the saving is
`mean(flagged) - mean(all)`. -/
def oppVal (percentile_threshold : ℤ) (key : String)
    (price_data : List PriceObs) : Option SavingsOpportunity :=
  if price_data.length < 3 then none
  else
    let prices := price_data.map (·.price)
    let thr := (quantiles100 prices).getD (percentile_threshold - 1).toNat 0
    let high := price_data.filter (fun p => thr < p.price)
    if high = [] then none
    else some
      { item := key
        average_price := mean prices
        lowest_price := pyMin prices
        highest_price := pyMax prices
        threshold_price := thr
        potential_savings_per_purchase :=
          mean (high.map (·.price)) - mean prices
        high_price_vendors := firstDedup (high.filterMap (·.vendor)) }

/-- The result `find_savings_opportunities` produces when the
percentile lookup stays in range (named for the claim theorems). -/
def savingsResultVal (pt : ℤ) (category : String)
    (receipts : List Receipt) : SavingsResult :=
  let opps := (firstDedup ((itemObsPairs receipts).map Prod.fst)).filterMap
    (fun k => oppVal pt k (obsOf receipts k))
  { category := category
    total_opportunities := opps.length
    opportunities := stableSort
      (fun a b => decide (b.potential_savings_per_purchase ≤
        a.potential_savings_per_purchase)) opps }

/-- The item loop, in first-occurrence key order; an `IndexError` in any
iteration propagates out (Python has no handler around this loop). -/
def collectOpps (percentile_threshold : ℤ) (receipts : List Receipt) :
    List String → Except String (List SavingsOpportunity)
  | [] => .ok []
  | k :: ks => do
      let o ← oppForItem percentile_threshold k (obsOf receipts k)
      let os ← collectOpps percentile_threshold receipts ks
      match o with
      | some x => return x :: os
      | none => return os

/-- `find_savings_opportunities` over the (nominal) last-60-days window
within a category. -/
def find_savings_opportunities (store : Store) (today : ℤ)
    (category : String) (percentile_threshold : ℤ) (user_id : String) :
    Except String SavingsResult :=
  let receipts := _fetch_receipts store user_id
    { start_date := some (dateStr (today - 60)),
      end_date := some (dateStr today), category := some category }
  do
    let opps ← collectOpps percentile_threshold receipts
      (firstDedup ((itemObsPairs receipts).map Prod.fst))
    return { category := category
             total_opportunities := opps.length
             opportunities := stableSort
               (fun a b => decide (b.potential_savings_per_purchase ≤
                 a.potential_savings_per_purchase)) opps }

/-! ## The tool-calling orchestration loop
(`ReceiptChatAssistant.process_query`, pipeline.py lines 356–433)

The Vertex AI generative model is an external black box; we embed it as
a function from the conversation history to a response (the pipeline
sends `temperature=0`, so a deterministic function is the faithful
model).  Argument and result scalars are embedded as a small JSON-like
value type; a tool is a function from a keyword-argument mapping to
`Except String` — `Except.error` standing for a raised Python
exception, which the loop's `try/except` turns into a per-call error
result.  The final `response.text` read (line 432) is embedded as the
joined text parts of the first candidate; the SDK accessor itself
belongs to the external library.  The shopping-list side-effect pass
(lines 435–475) runs after the loop and does not touch the loop's
answer text, execution log or tool dispatch, so it is not part of this
model. -/

/-- A JSON-ish scalar: a model-supplied argument or a tool result. -/
inductive JVal where
  | s (v : String)
  | n (v : ℤ)
  | b (v : Bool)
  deriving DecidableEq

/-- A keyword-argument mapping, as an association list with the keys
unique (a Python `dict`). -/
abbrev Args : Type := List (String × JVal)

/-- `json.dumps(result, default=str)`, simplified to an unescaped
rendering: the loop never inspects the payload it serialises. -/
def serialize : JVal → String
  | .s v => "\x22" ++ v ++ "\x22"
  | .n v => toString v
  | .b true => "true"
  | .b false => "false"

/-- A part of a model or tool turn (`vertexai.generative_models.Part`):
text, a requested function call, or a function response carrying either
serialised content (`ok = true`) or an error message (`ok = false`). -/
inductive Part where
  | text (s : String)
  | functionCall (name : String) (args : Args)
  | functionResponse (name : String) (ok : Bool) (payload : String)
  deriving DecidableEq

/-- A conversation turn (`Content`): a role and its parts. -/
structure Content where
  role : String
  parts : List Part
  deriving DecidableEq

structure Candidate where
  content : Content
  deriving DecidableEq

/-- A model response (`GenerationResponse`). -/
structure Response where
  candidates : List Candidate
  deriving DecidableEq

/-- The model as the loop uses it: full history in, response out. -/
def Model : Type := List Content → Response

/-- A registered tool: keyword arguments in, result or raised exception
out. -/
def ToolFn : Type := Args → Except String JVal

/-- The toolbox `self.toolbox`: `dict.get` by tool name. -/
def Toolbox : Type := String → Option ToolFn

/-- `args["user_id"] = user_id` on `dict(function_call.args)`: any
model-supplied `user_id` binding is removed and the caller's injected. -/
def withUserId (args : Args) (uid : String) : Args :=
  (args.filter (fun p => p.1 ≠ "user_id")) ++ [("user_id", JVal.s uid)]

/-- `{k: v for k, v in args.items() if k not in ['user_id']}`. -/
def logArgs (args : Args) : Args :=
  args.filter (fun p => p.1 ≠ "user_id")

/-- One execution-log entry (`execution_results`). -/
structure LogEntry where
  tool : String
  args : Args
  result : JVal
  deriving DecidableEq

/-- What processing the parts of one model turn produces: the function
responses bundled into the synthetic `"tool"` turn, the execution-log
entries, and — as a ghost trace for the security statement — every
`(tool name, argument mapping)` actually invoked. -/
structure TurnOut where
  responses : List Part
  log : List LogEntry
  invocations : List (String × Args)
  deriving DecidableEq

/-- Processing of ONE part of the model's turn (the body of the
`for part in response.candidates[0].content.parts` loop): non-call
parts are skipped; a name missing from the toolbox yields the
`"tool not found"` error result; otherwise the tool is invoked with the
injected `user_id`, success is logged and serialised, and a raised
exception becomes that call's error result. -/
def processPart (tb : Toolbox) (uid : String) : Part → TurnOut
  | .functionCall name args =>
    match tb name with
    | none =>
        { responses := [.functionResponse name false
            ("Tool '" ++ name ++ "' not found.")]
          log := []
          invocations := [] }
    | some f =>
        let args' := withUserId args uid
        match f args' with
        | .ok v =>
            { responses := [.functionResponse name true (serialize v)]
              log := [{ tool := name, args := logArgs args', result := v }]
              invocations := [(name, args')] }
        | .error e =>
            { responses := [.functionResponse name false e]
              log := []
              invocations := [(name, args')] }
  | _ => { responses := [], log := [], invocations := [] }

/-- Concatenation of turn outputs (the loop appends to all three). -/
def TurnOut.append (a b : TurnOut) : TurnOut :=
  { responses := a.responses ++ b.responses
    log := a.log ++ b.log
    invocations := a.invocations ++ b.invocations }

/-- Sequential processing of a turn's parts, in the order listed. -/
def processParts (tb : Toolbox) (uid : String) : List Part → TurnOut
  | [] => { responses := [], log := [], invocations := [] }
  | p :: ps => (processPart tb uid p).append (processParts tb uid ps)

/-- The loop's break test (line 380): stop when the response has no
candidates, OR the first candidate's content has no parts, OR the FIRST
part is not a function call.  (Note: only `parts[0]` is consulted.) -/
def stopCheck (r : Response) : Bool :=
  match r.candidates with
  | [] => true
  | c :: _ =>
    match c.content.parts with
    | [] => true
    | .functionCall _ _ :: _ => false
    | _ => true

/-- The first candidate's content; only read when `stopCheck` is
false, so the default is never observed. -/
def turnContentOf (r : Response) : Content :=
  ((r.candidates.headD ⟨⟨"model", []⟩⟩).content)

/-- What one `process_query` run produces, with ghost instrumentation:
`last` is the `response` variable after the loop, `calls` the number of
`generate_content` round-trips made, `brokeEarly` whether the loop left
through the no-tool-call `break` (the spec's `FINAL` before budget
exhaustion) rather than by exhausting `range(5)`. -/
structure LoopOut where
  hist : List Content
  last : Response
  log : List LogEntry
  invocations : List (String × Args)
  calls : ℕ
  brokeEarly : Bool
  deriving DecidableEq

/-- The `for _ in range(fuel)` loop.  `prev` is the `response` variable
from the previous iteration (only surviving to `last` at fuel 0, i.e.
when the budget is exhausted). -/
def runLoop (model : Model) (tb : Toolbox) (uid : String) :
    ℕ → List Content → Response → LoopOut
  | 0, hist, prev =>
      { hist := hist, last := prev, log := [], invocations := [],
        calls := 0, brokeEarly := false }
  | n + 1, hist, _prev =>
      let r := model hist
      if stopCheck r then
        { hist := hist, last := r, log := [], invocations := [],
          calls := 1, brokeEarly := true }
      else
        let c := turnContentOf r
        let turn := processParts tb uid c.parts
        let hist' := hist ++ [c, ⟨"tool", turn.responses⟩]
        let rest := runLoop model tb uid n hist' r
        { hist := rest.hist
          last := rest.last
          log := turn.log ++ rest.log
          invocations := turn.invocations ++ rest.invocations
          calls := rest.calls + 1
          brokeEarly := rest.brokeEarly }

/-- The initial history: one user turn with the identifier and query. -/
def initHistory (uid query : String) : List Content :=
  [⟨"user", [Part.text ("User ID: " ++ uid ++ "\n\nQuery: " ++ query)]⟩]

/-- The text of the first candidate (the `response.text` read at line
432): its text parts joined.  The no-candidates fallback is applied by
`process_query` itself. -/
def responseText (r : Response) : String :=
  String.join ((turnContentOf r).parts.filterMap (fun p =>
    match p with
    | .text s => some s
    | _ => none))

structure QueryOut where
  answer : String
  log : List LogEntry
  invocations : List (String × Args)
  calls : ℕ
  brokeEarly : Bool
  lastResponse : Response
  deriving DecidableEq

/-- `process_query` up to `final_response_text` (line 432): the bounded
tool-calling loop with a budget of 5 round-trips, then the final answer
with the explicit no-candidates fallback string. -/
def process_query (model : Model) (tb : Toolbox) (query uid : String) :
    QueryOut :=
  let out := runLoop model tb uid 5 (initHistory uid query) ⟨[]⟩
  { answer := if out.last.candidates = [] then "No response from model."
      else responseText out.last
    log := out.log
    invocations := out.invocations
    calls := out.calls
    brokeEarly := out.brokeEarly
    lastResponse := out.last }

/-! ## Concrete fixtures used by witnesses and counterexamples -/

/-- A store for the C8 witness: the item name `" Milk "` normalises to
`"milk"` and occurs twice, the name `"egg"` once. -/
def storeFreq : Store := fun u =>
  if u = "u1" then
    [{ vendor_name := some "A", category := some "grocery", date := 10,
       amount := 30, items := [⟨" Milk ", 25⟩, ⟨"egg", 5⟩] },
     { vendor_name := some "A", category := some "grocery", date := 12,
       amount := 27, items := [⟨"MILK", 27⟩] }]
  else []
/-- A store of three receipts with amounts `1, 2, 3` (sample standard
deviation exactly `1`). -/
def storeAnom : Store := fun u =>
  if u = "u1" then
    [{ vendor_name := some "A", category := some "other", date := 1,
       amount := 1, items := [] },
     { vendor_name := some "B", category := some "other", date := 2,
       amount := 2, items := [] },
     { vendor_name := some "C", category := some "other", date := 3,
       amount := 3, items := [] }]
  else []
/-- A store with a single `"milk"` purchase, 5 days before "today". -/
def storeInv1 : Store := fun u =>
  if u = "u1" then
    [{ vendor_name := some "S", category := some "grocery", date := 100,
       amount := 10, items := [⟨"Milk 1L", 10⟩] }]
  else []
/-- A store with two `"milk"` purchases 30 days apart, the last 70 days
before "today". -/
def storeInv2 : Store := fun u =>
  if u = "u1" then
    [{ vendor_name := some "S", category := some "grocery", date := 0,
       amount := 10, items := [⟨"Milk 1L", 10⟩] },
     { vendor_name := some "S", category := some "grocery", date := 30,
       amount := 11, items := [⟨"milk 1l", 11⟩] }]
  else []

/-- Vendor `"V"` charged 100 three times, at days 0, 31 and 63: equal
amounts, mean interval `31.5` — the classification holds, and the mean
interval is not an integer. -/
def storeSub : Store := fun u =>
  if u = "u1" then
    [{ vendor_name := some "V", category := some "utilities", date := 0,
       amount := 100, items := [] },
     { vendor_name := some "V", category := some "utilities", date := 31,
       amount := 100, items := [] },
     { vendor_name := some "V", category := some "utilities", date := 63,
       amount := 100, items := [] }]
  else []

/-- The spec's two-receipt example: vendor `"A"`, amounts 100 and 102,
30 days apart. -/
def subExample : List Receipt :=
  [{ vendor_name := some "A", category := some "grocery", date := 0,
     amount := 100, items := [] },
   { vendor_name := some "A", category := some "grocery", date := 30,
     amount := 102, items := [] }]

/-- The single subscription entry the example produces. -/
def subExampleEntry : Subscription :=
  { vendor := "A", estimated_monthly_cost := 101, transaction_count := 2,
    average_interval_days := 30, last_charge := 30,
    next_expected_charge := 60 }

def storeSubEx : Store := fun u => if u = "u1" then subExample else []

/-- Three `"g"`-category receipts carrying the item `"x"` at prices
1, 2, 3: one item name with three price observations. -/
def storeSav : Store := fun u =>
  if u = "u1" then
    [{ vendor_name := some "P", category := some "g", date := 1,
       amount := 1, items := [⟨"x", 1⟩] },
     { vendor_name := some "Q", category := some "g", date := 2,
       amount := 2, items := [⟨"x", 2⟩] },
     { vendor_name := some "R", category := some "g", date := 3,
       amount := 3, items := [⟨"x", 3⟩] }]
  else []

/-- A toolbox with one total tool `"t"` and one raising tool `"boom"`. -/
def tbW : Toolbox := fun n =>
  if n = "t" then some (fun _ => .ok (.b true))
  else if n = "boom" then some (fun _ => .error "ValueError: boom")
  else none

/-- A model that requests the tool `"t"` on every turn and supplies its
own `user_id` argument, which the orchestrator must override. -/
def mAlways : Model := fun _ =>
  ⟨[⟨⟨"model", [.functionCall "t" [("user_id", .s "evil"), ("a", .n 1)]]⟩⟩]⟩

/-- A model whose turn has a text part FIRST and a tool call second:
the turn contains a tool-call part, but not in first position. -/
def mMixed : Model := fun _ =>
  ⟨[⟨⟨"model", [.text "hello", .functionCall "t" []]⟩⟩]⟩

/-- A model that always answers in plain text. -/
def mText : Model := fun _ => ⟨[⟨⟨"model", [.text "hi"]⟩⟩]⟩

/-! # Theorems

First the generic lemmas about the helper functions, then one theorem
(with its witness or counterexample) per specification claim. -/

theorem insOrd_perm (le : α → α → Bool) (x : α) (l : List α) :
    (insOrd le x l).Perm (x :: l) := by
  induction l with
  | nil => simp [insOrd]
  | cons y ys ih =>
    simp only [insOrd]
    by_cases h : le y x = true
    · simp only [h, if_pos]
      exact ((ih.cons y).trans (List.Perm.swap x y ys))
    · simp [h]

theorem stableSort_perm (le : α → α → Bool) (l : List α) :
    (stableSort le l).Perm l := by
  suffices h : ∀ acc : List α,
      (l.foldl (fun acc x => insOrd le x acc) acc).Perm (l.reverse ++ acc) by
    have h1 := h []
    rw [List.append_nil] at h1
    exact h1.trans l.reverse_perm
  induction l with
  | nil => intro acc; simp
  | cons x xs ih =>
    intro acc
    simp only [List.foldl_cons, List.reverse_cons, List.append_assoc,
      List.singleton_append]
    exact (ih (insOrd le x acc)).trans
      (List.Perm.append_left xs.reverse (insOrd_perm le x acc))

theorem mem_stableSort (le : α → α → Bool) (x : α) (l : List α) :
    x ∈ stableSort le l ↔ x ∈ l :=
  (stableSort_perm le l).mem_iff

theorem insOrd_pairwise (le : α → α → Bool)
    (htrans : ∀ a b c, le a b = true → le b c = true → le a c = true)
    (htot : ∀ a b, le a b = true ∨ le b a = true)
    (x : α) (l : List α) (hl : l.Pairwise (fun a b => le a b = true)) :
    (insOrd le x l).Pairwise (fun a b => le a b = true) := by
  induction l with
  | nil => simp [insOrd]
  | cons y ys ih =>
    simp only [insOrd]
    rcases List.pairwise_cons.mp hl with ⟨hy, hys⟩
    by_cases h : le y x = true
    · simp only [h, if_pos]
      refine List.pairwise_cons.mpr ⟨?_, ih hys⟩
      intro b hb
      rcases List.mem_cons.mp ((insOrd_perm le x ys).mem_iff.mp hb) with hbx | hbys
      · exact hbx ▸ h
      · exact hy b hbys
    · simp only [h, if_neg, Bool.not_eq_true]
      refine List.pairwise_cons.mpr ⟨?_, hl⟩
      intro b hb
      have hxy : le x y = true := by
        rcases htot x y with h' | h'
        · exact h'
        · exact absurd h' (by simpa using h)
      rcases List.mem_cons.mp hb with hby | hbys
      · exact hby ▸ hxy
      · exact htrans x y b hxy (hy b hbys)

theorem stableSort_pairwise (le : α → α → Bool)
    (htrans : ∀ a b c, le a b = true → le b c = true → le a c = true)
    (htot : ∀ a b, le a b = true ∨ le b a = true)
    (l : List α) :
    (stableSort le l).Pairwise (fun a b => le a b = true) := by
  suffices h : ∀ acc : List α, acc.Pairwise (fun a b => le a b = true) →
      (l.foldl (fun acc x => insOrd le x acc) acc).Pairwise
        (fun a b => le a b = true) by
    exact h [] (by simp)
  induction l with
  | nil => intro acc hacc; simpa using hacc
  | cons x xs ih =>
    intro acc hacc
    exact ih (insOrd le x acc) (insOrd_pairwise le htrans htot x acc hacc)

theorem mem_firstDedup [DecidableEq α] (x : α) (l : List α) :
    x ∈ firstDedup l ↔ x ∈ l := by
  suffices h : ∀ acc : List α,
      (x ∈ l.foldl (fun acc x => if x ∈ acc then acc else acc ++ [x]) acc ↔
        x ∈ acc ∨ x ∈ l) by
    simpa [firstDedup] using h []
  induction l with
  | nil => intro acc; simp
  | cons y ys ih =>
    intro acc
    simp only [List.foldl_cons]
    by_cases hy : y ∈ acc
    · rw [if_pos hy, ih acc]
      constructor
      · rintro (h | h)
        · exact Or.inl h
        · exact Or.inr (List.mem_cons_of_mem y h)
      · rintro (h | h)
        · exact Or.inl h
        · rcases List.mem_cons.mp h with rfl | h
          · exact Or.inl hy
          · exact Or.inr h
    · rw [if_neg hy, ih (acc ++ [y])]
      simp only [List.mem_append, List.mem_singleton, List.mem_cons]
      tauto

/-- The `sqrtLt` encoding is exactly `stdev < t` for a variance `v ≥ 0`:
the standard deviation `√v` is below `t` iff `t` is positive and `v`
is below `t²`. -/
theorem sqrtLt_iff (v t : ℚ) (hv : 0 ≤ v) :
    sqrtLt v t = true ↔ Real.sqrt (v : ℝ) < (t : ℝ) := by
  simp only [sqrtLt, Bool.and_eq_true, decide_eq_true_eq]
  constructor
  · rintro ⟨ht, hlt⟩
    have ht' : (0 : ℝ) < (t : ℝ) := by exact_mod_cast ht
    rw [show ((t : ℝ)) = Real.sqrt ((t : ℝ) ^ 2) by
      rw [Real.sqrt_sq ht'.le]]
    apply Real.sqrt_lt_sqrt (by exact_mod_cast hv)
    exact_mod_cast hlt
  · intro h
    have h0 : (0 : ℝ) ≤ Real.sqrt (v : ℝ) := Real.sqrt_nonneg _
    have ht : (0 : ℝ) < (t : ℝ) := lt_of_le_of_lt h0 h
    refine ⟨by exact_mod_cast ht, ?_⟩
    rw [Real.sqrt_lt' ht] at h
    exact_mod_cast h

/-- `datesOnly` parameters carry no filter, so the fetch is the user's
whole stored collection. -/
theorem fetch_datesOnly (store : Store) (uid : String) (s e : Option String) :
    _fetch_receipts store uid (datesOnly s e) = store uid := rfl

/-! ## C10 -/

/-- C10: `get_receipts_by_timerange` returns the same sequence for every
pair of start/end timestamps (the range restriction is disabled), and
therefore the requested date range influences `_fetch_receipts` only
through the category / vendor / amount filters: two parameter mappings
agreeing on those three filters fetch identical results. -/
theorem fetch_ignores_dates (store : Store) (uid : String) :
    (∀ s₁ e₁ s₂ e₂ : Option String,
      get_receipts_by_timerange store uid s₁ e₁ =
        get_receipts_by_timerange store uid s₂ e₂)
    ∧ ∀ p p' : FetchParams, p.category = p'.category →
        p.vendor_name = p'.vendor_name →
        p.amount_condition = p'.amount_condition →
        _fetch_receipts store uid p = _fetch_receipts store uid p' := by
  refine ⟨fun _ _ _ _ => rfl, fun p p' hc hv ha => ?_⟩
  simp only [_fetch_receipts, get_receipts_by_timerange, hc, hv, ha]

/-- Witness for C10: two different date ranges, same fetched list. -/
theorem fetch_ignores_dates_witness :
    _fetch_receipts storeX "u1"
        (datesOnly (some "2025-01-01") (some "2025-01-31")) =
      _fetch_receipts storeX "u1"
        (datesOnly (some "2024-05-05") (some "2024-06-06")) :=
  (fetch_ignores_dates storeX "u1").2 _ _ rfl rfl rfl

/-! ## C8 -/

/-- Helper: an entry of the frequent-items result is the entry built for
its own key, and membership is governed by the count threshold. -/
theorem mem_frequent_items (store : Store) (min_frequency : ℤ)
    (sd ed uid : String) (e : FrequentItem) :
    e ∈ get_frequently_purchased_items store min_frequency sd ed uid ↔
      (e = mkFrequentItem
          (_fetch_receipts store uid (datesOnly (some sd) (some ed))) e.item ∧
        e.item ∈ normNames
          (_fetch_receipts store uid (datesOnly (some sd) (some ed))) ∧
        min_frequency ≤ ((normNames
          (_fetch_receipts store uid (datesOnly (some sd) (some ed)))).count
            e.item : ℤ)) := by
  set receipts := _fetch_receipts store uid (datesOnly (some sd) (some ed))
  unfold get_frequently_purchased_items
  rw [mem_stableSort, List.mem_map]
  constructor
  · rintro ⟨k, hk, rfl⟩
    rcases List.mem_filter.mp hk with ⟨hk1, hk2⟩
    have hitem : (mkFrequentItem receipts k).item = k := rfl
    rw [hitem]
    exact ⟨rfl, (mem_firstDedup k _).mp hk1, by simpa using hk2⟩
  · rintro ⟨he, hmem, hcount⟩
    exact ⟨e.item, List.mem_filter.mpr
      ⟨(mem_firstDedup e.item _).mpr hmem, by simpa using hcount⟩, he.symm⟩

/-- C8: `get_frequently_purchased_items` counts items by their
lower-cased, trimmed name; a name appears in the result exactly when it
is counted at least `min_frequency` times (so a name counted exactly
`min_frequency - 1` times never appears); each entry's purchase count is
its name's count, its price observations are one per counted occurrence,
and its reported price variance — the sample standard deviation, stored
here as its square `price_variance_sq` — is `0` when fewer than 2 price
observations exist. -/
theorem frequent_items_correct (store : Store) (min_frequency : ℤ)
    (sd ed uid : String) :
    let receipts := _fetch_receipts store uid (datesOnly (some sd) (some ed))
    let result := get_frequently_purchased_items store min_frequency sd ed uid
    (∀ key : String,
      (∃ e ∈ result, e.item = key) ↔
        key ∈ normNames receipts ∧
          min_frequency ≤ ((normNames receipts).count key : ℤ))
    ∧ (∀ e ∈ result,
        e.purchase_count = (normNames receipts).count e.item ∧
        (pricesOf receipts e.item).length = (normNames receipts).count e.item ∧
        e.price_variance_sq = (if 1 < (pricesOf receipts e.item).length then
          sampleVar (pricesOf receipts e.item) else 0))
    ∧ (∀ key : String,
        ((normNames receipts).count key : ℤ) = min_frequency - 1 →
          ¬ ∃ e ∈ result, e.item = key) := by
  intro receipts result
  have hprices : ∀ key : String,
      (pricesOf receipts key).length = (normNames receipts).count key := by
    intro key
    simp only [pricesOf, normNames]
    induction namePricePairs receipts with
    | nil => rfl
    | cons p ps ih =>
      by_cases h : p.1 = key
      · simp [List.filter_cons, List.count_cons, h, ih]
      · simp [List.filter_cons, List.count_cons, h, ih]
  refine ⟨?_, ?_, ?_⟩
  · intro key
    constructor
    · rintro ⟨e, he, rfl⟩
      exact ((mem_frequent_items store min_frequency sd ed uid e).mp he).2
    · rintro ⟨hmem, hcount⟩
      refine ⟨mkFrequentItem receipts key, ?_, rfl⟩
      exact (mem_frequent_items store min_frequency sd ed uid _).mpr
        ⟨rfl, hmem, hcount⟩
  · intro e he
    have h := ((mem_frequent_items store min_frequency sd ed uid e).mp he).1
    refine ⟨?_, hprices e.item, ?_⟩
    · rw [h]; rfl
    · rw [h]; rfl
  · intro key hkey ⟨e, he, hei⟩
    have h := ((mem_frequent_items store min_frequency sd ed uid e).mp he).2.2
    rw [hei, hkey] at h
    omega


/-- Witness for C8: with `min_frequency = 2`, `"milk"` (counted twice)
appears and `"egg"` (counted once, i.e. `min_frequency - 1` times)
does not. -/
theorem frequent_items_witness :
    (∃ e ∈ get_frequently_purchased_items storeFreq 2 "d1" "d2" "u1",
      e.item = "milk")
    ∧ ¬ (∃ e ∈ get_frequently_purchased_items storeFreq 2 "d1" "d2" "u1",
      e.item = "egg") := by
  constructor
  · exact (frequent_items_correct storeFreq 2 "d1" "d2" "u1").1 "milk"
      |>.mpr (by decide)
  · exact (frequent_items_correct storeFreq 2 "d1" "d2" "u1").2.2 "egg"
      (by decide)

/-! ## C9 -/

/-- `detect_unusual_spending` unfolded over the stored list (the
window arguments do not restrict the fetch). -/
theorem detect_unusual_eq (store : Store) (sd sensitivity : ℚ)
    (days_back today : ℤ) (uid : String) :
    detect_unusual_spending store sd sensitivity days_back today uid =
      if (store uid).length < 3 then []
      else stableSort (fun a b => decide (b.amount ≤ a.amount))
        (((store uid).filter (fun r =>
            mean ((store uid).map (·.amount)) + sensitivity * sd < r.amount)).map
          (mkUnusualEntry (mean ((store uid).map (·.amount))) sd)) := rfl

/-- C9: `detect_unusual_spending` returns the empty list whenever fewer
than 3 receipts are fetched; with at least 3 — `sd` being the sample
standard deviation of the amounts (`0 ≤ sd`, `sd ^ 2 = sampleVar`) —
the reported entries are exactly the receipts with amount strictly above
the threshold `mean + sensitivity · sd`, each carrying its deviation in
standard-deviation units and its percent above the mean
(`mkUnusualEntry`), and the result is sorted descending by amount. -/
theorem unusual_spending_correct (store : Store) (sd sensitivity : ℚ)
    (days_back today : ℤ) (uid : String) :
    let receipts := _fetch_receipts store uid
      (datesOnly (some (dateStr (today - days_back))) (some (dateStr today)))
    let result := detect_unusual_spending store sd sensitivity days_back today uid
    (receipts.length < 3 → result = [])
    ∧ (3 ≤ receipts.length → 0 ≤ sd →
        sd ^ 2 = sampleVar (receipts.map (·.amount)) →
        result.Perm ((receipts.filter (fun r =>
            mean (receipts.map (·.amount)) + sensitivity * sd < r.amount)).map
          (mkUnusualEntry (mean (receipts.map (·.amount))) sd))
        ∧ result.Pairwise (fun a b => b.amount ≤ a.amount)) := by
  intro receipts result
  constructor
  · intro h
    show detect_unusual_spending store sd sensitivity days_back today uid = []
    rw [detect_unusual_eq]
    exact if_pos h
  · intro h3 _hsd _hvar
    have h3' : ¬ (store uid).length < 3 := by
      have : 3 ≤ (store uid).length := h3
      omega
    constructor
    · show (detect_unusual_spending store sd sensitivity days_back today uid).Perm _
      rw [detect_unusual_eq, if_neg h3']
      exact stableSort_perm _ _
    · show (detect_unusual_spending store sd sensitivity
        days_back today uid).Pairwise (fun a b => b.amount ≤ a.amount)
      rw [detect_unusual_eq, if_neg h3']
      refine List.Pairwise.imp (fun h => of_decide_eq_true h) ?_
      exact stableSort_pairwise _
        (fun a b c h1 h2 => by
          simp only [decide_eq_true_eq] at *
          exact le_trans h2 h1)
        (fun a b => by
          simp only [decide_eq_true_eq]
          exact le_total b.amount a.amount)
        _


/-- Witness for C9: with `sd = 1` (the exact sample standard deviation
of `[1, 2, 3]`) and sensitivity `1/2`, the result is sorted descending
by amount. -/
theorem unusual_spending_witness :
    (detect_unusual_spending storeAnom 1 (1/2) 30 100 "u1").Pairwise
      (fun a b => b.amount ≤ a.amount) := by
  refine ((unusual_spending_correct storeAnom 1 (1/2) 30 100 "u1").2
    (by decide) (by norm_num) ?_).2
  show (1 : ℚ) ^ 2 = sampleVar [1, 2, 3]
  norm_num [sampleVar, mean]

/-! ## C6 -/


/-- Counterexample for C6: with exactly one matching purchase the
average interval is undefined (`None`), yet `needs_replenishment` is the
boolean `False`, not an absent/null value — `check_inventory_status`
writes `None` into the flag only when no purchase matched at all. -/
theorem inventory_status_counterexample :
    (check_inventory_status storeInv1 105 ["milk"] "u1").map
        (fun p => (p.2.purchase_count, p.2.average_purchase_interval,
          p.2.needs_replenishment))
      = [(1, none, some false)] := by decide

/-- C6 (amended): for every requested name matched by case-insensitive
substring, when at least 2 purchases exist the entry carries the average
inter-purchase interval, and the needs-replenishment flag is `true`
exactly when that average is non-zero AND days-since-last-purchase
exceeds 1.2 times it (a zero average falls to `false` through Python
truthiness); with exactly one purchase the flag is the boolean `false`
(not null); only with no matching purchase is the flag null. -/
theorem inventory_status_correct (store : Store) (today : ℤ)
    (item_names : List String) (uid : String) :
    let receipts := _fetch_receipts store uid
      (datesOnly (some (dateStr (today - 90))) (some (dateStr today)))
    ∀ n entry, (n, entry) ∈ check_inventory_status store today item_names uid →
      let dates := purchaseDatesFor receipts (normName n)
      (2 ≤ dates.length →
        ∃ avg, entry.average_purchase_interval = some avg ∧
          avg = mean (dayGaps (stableSort (fun a b => decide (a ≤ b)) dates)) ∧
          ∃ last, dates.max? = some last ∧
            (entry.needs_replenishment = some true ↔
              (avg ≠ 0 ∧ avg * (6/5) < ((today - last : ℤ) : ℚ))))
      ∧ (dates.length = 1 →
          entry.average_purchase_interval = none ∧
          entry.needs_replenishment = some false)
      ∧ (dates.length = 0 → entry.needs_replenishment = none) := by
  intro receipts n entry hmem dates
  have hentry : entry = inventoryEntryFor today receipts n := by
    rcases List.mem_map.mp hmem with ⟨x, _hx, hpair⟩
    have h1 : x = n := congrArg Prod.fst hpair
    have h2 := congrArg Prod.snd hpair
    simp only at h2
    rw [← h2, h1]
  subst hentry
  refine ⟨?_, ?_, ?_⟩
  · intro h2
    have hne : dates ≠ [] := by
      intro h
      rw [h] at h2
      simp at h2
    cases hmax : dates.max? with
    | none => exact absurd (List.max?_eq_none_iff.mp hmax) hne
    | some last =>
      have havg : 1 < dates.length := by omega
      refine ⟨mean (dayGaps (stableSort (fun a b => decide (a ≤ b)) dates)),
        ?_, rfl, last, rfl, ?_⟩
      · show (inventoryEntryFor today receipts n).average_purchase_interval = _
        simp only [inventoryEntryFor]
        rw [hmax]
        simp [dates, if_pos havg]
      · show (inventoryEntryFor today receipts n).needs_replenishment
            = some true ↔ _
        simp only [inventoryEntryFor]
        rw [hmax]
        simp only [if_pos havg]
        set a := mean (dayGaps (stableSort (fun a b => decide (a ≤ b)) dates))
          with ha
        by_cases h0 : a = 0
        · simp [dates, ← ha, h0]
        · simp [dates, ← ha, h0]
  · intro h1
    have hne : dates ≠ [] := by
      intro h
      rw [h] at h1
      simp at h1
    cases hmax : dates.max? with
    | none => exact absurd (List.max?_eq_none_iff.mp hmax) hne
    | some last =>
      have havg : ¬ 1 < dates.length := by omega
      constructor
      · show (inventoryEntryFor today receipts n).average_purchase_interval = none
        simp only [inventoryEntryFor]
        rw [hmax]
        simp [dates, if_neg havg]
      · show (inventoryEntryFor today receipts n).needs_replenishment
            = some false
        simp only [inventoryEntryFor]
        rw [hmax]
        simp [dates, if_neg havg]
  · intro h0
    have hnil : dates = [] := List.length_eq_zero.mp h0
    have hmax : dates.max? = none := by rw [hnil]; rfl
    show (inventoryEntryFor today receipts n).needs_replenishment = none
    simp only [inventoryEntryFor]
    rw [hmax]


/-- Witness for C6: two purchases 30 days apart, 70 days since the last
one — `70 > 1.2 × 30`, so the flag is `some true`. -/
theorem inventory_status_witness :
    (inventoryEntryFor 100 (storeInv2 "u1") "milk").needs_replenishment
      = some true := by
  have h := inventory_status_correct storeInv2 100 ["milk"] "u1" "milk"
    (inventoryEntryFor 100 (storeInv2 "u1") "milk")
    (List.mem_map.mpr ⟨"milk", by decide, rfl⟩)
  obtain ⟨avg, _havg, havgval, last, hlast, hiff⟩ := h.1 (by decide)
  have hlast30 : last = 30 := by
    have hmax : (purchaseDatesFor (_fetch_receipts storeInv2 "u1"
        (datesOnly (some (dateStr (100 - 90))) (some (dateStr 100))))
        (normName "milk")).max? = some 30 := by decide
    rw [hmax] at hlast
    exact (Option.some_inj.mp hlast).symm
  have havg30 : avg = 30 := by
    rw [havgval]
    show mean (dayGaps (stableSort (fun a b => decide (a ≤ b)) [0, 30])) = 30
    norm_num [mean, dayGaps, stableSort, insOrd]
  exact hiff.mpr ⟨by rw [havg30]; norm_num, by rw [havg30, hlast30]; norm_num⟩

/-! ## C5 -/

theorem stableSort_length (le : α → α → Bool) (l : List α) :
    (stableSort le l).length = l.length :=
  (stableSort_perm le l).length_eq

theorem dayGaps_length (dates : List ℤ) :
    (dayGaps dates).length = dates.length - 1 := by
  simp only [dayGaps, List.length_map, List.length_zip, List.length_tail]
  omega

/-- A vendor appears among the grouping keys iff it has a transaction. -/
theorem mem_vendors_iff (receipts : List Receipt) (v : String) :
    v ∈ (vendorTxPairs receipts).map Prod.fst ↔ txsOf receipts v ≠ [] := by
  rw [List.mem_map]
  constructor
  · rintro ⟨p, hp, rfl⟩ h
    have hmem : p ∈ (vendorTxPairs receipts).filter
        (fun q => decide (q.1 = p.1)) :=
      List.mem_filter.mpr ⟨hp, by simp⟩
    have hnil : (vendorTxPairs receipts).filter
        (fun q => decide (q.1 = p.1)) = [] := by
      have := List.map_eq_nil.mp h
      exact this
    rw [hnil] at hmem
    exact absurd hmem (List.not_mem_nil p)
  · intro h
    rcases List.exists_mem_of_ne_nil _ h with ⟨t, ht⟩
    rcases List.mem_map.mp ht with ⟨q, hq, _⟩
    have := (List.mem_filter.mp hq).2
    refine ⟨q, (List.mem_filter.mp hq).1, ?_⟩
    simpa using this

/-- For a vendor with at least 2 transactions (so the interval list is
non-empty), `subscriptionFor` reduces to the classification test. -/
theorem subscriptionFor_eq_of_two_le (receipts : List Receipt) (v : String)
    (h2 : 2 ≤ (txsOf receipts v).length) :
    subscriptionFor receipts v =
      if isLikelySubscription (txsOf receipts v) then
        some (subEntry receipts v)
      else none := by
  have h2' : ¬ (txsOf receipts v).length < 2 := by omega
  have hnil : ¬ (dayGaps ((stableSort (fun a b : Tx => decide
      (a.date ≤ b.date)) (txsOf receipts v)).map (·.date)) = []) := by
    intro h
    have hl := congrArg List.length h
    rw [dayGaps_length, List.length_map, stableSort_length] at hl
    simp only [List.length_nil] at hl
    omega
  simp only [subscriptionFor]
  rw [if_neg h2', if_neg hnil]
  rfl

/-- `subscriptionFor` characterised: it yields an entry exactly for a
vendor with at least 2 transactions passing the classification test,
and the entry is `subEntry`. -/
theorem subscriptionFor_some_iff (receipts : List Receipt) (v : String)
    (s : Subscription) :
    subscriptionFor receipts v = some s ↔
      2 ≤ (txsOf receipts v).length ∧
        isLikelySubscription (txsOf receipts v) = true ∧
        s = subEntry receipts v := by
  by_cases h2 : 2 ≤ (txsOf receipts v).length
  · rw [subscriptionFor_eq_of_two_le receipts v h2]
    by_cases hlik : isLikelySubscription (txsOf receipts v) = true
    · rw [if_pos hlik]
      constructor
      · intro h
        exact ⟨h2, hlik, (Option.some_inj.mp h).symm⟩
      · rintro ⟨_, _, rfl⟩
        rfl
    · rw [if_neg hlik]
      constructor
      · intro h; exact absurd h (by simp)
      · rintro ⟨_, hl, _⟩; exact absurd hl hlik
  · have hlt : (txsOf receipts v).length < 2 := by omega
    simp only [subscriptionFor]
    rw [if_pos hlt]
    constructor
    · intro h; exact absurd h (by simp)
    · rintro ⟨h, _⟩; exact absurd h h2

/-- C5 (amended): over the fetched transactions, a vendor is classified
as a subscription exactly when it has at least 2 transactions whose
amount standard deviation is below 10% of the mean amount, whose
interval standard deviation is below 20% of the mean interval, and whose
mean interval lies in `[25, 35]` inclusive; every reported entry is the
`subEntry` record of its vendor, whose `next_expected_charge` is the
last charge date plus the mean interval TRUNCATED to an integer
(`int(...)` — not rounded); and on the spec's two-receipt example the
result is exactly one entry with `average_interval_days = 30` and
`estimated_monthly_cost = 101`. -/
theorem recurring_subscriptions_correct (store : Store) (today : ℤ)
    (uid : String) :
    let receipts := _fetch_receipts store uid
      (datesOnly (some (dateStr (today - 90))) (some (dateStr today)))
    let result := detect_recurring_subscriptions store today uid
    (∀ v : String,
      (∃ s ∈ result, s.vendor = v) ↔
        2 ≤ (txsOf receipts v).length ∧
          isLikelySubscription (txsOf receipts v) = true)
    ∧ (∀ s ∈ result, s = subEntry receipts s.vendor ∧
        s.next_expected_charge = s.last_charge + pyInt s.average_interval_days)
    ∧ (store uid = subExample → result = [subExampleEntry]) := by
  intro receipts result
  have hres : ∀ s : Subscription, s ∈ result ↔
      ∃ k ∈ firstDedup ((vendorTxPairs receipts).map Prod.fst),
        subscriptionFor receipts k = some s := by
    intro s
    exact List.mem_filterMap
  refine ⟨?_, ?_, ?_⟩
  · intro v
    constructor
    · rintro ⟨s, hs, rfl⟩
      rcases (hres s).mp hs with ⟨k, _, hk⟩
      rcases (subscriptionFor_some_iff receipts k s).mp hk with ⟨h2, hlik, rfl⟩
      exact ⟨h2, hlik⟩
    · rintro ⟨h2, hlik⟩
      refine ⟨subEntry receipts v, (hres _).mpr ⟨v, ?_, ?_⟩, rfl⟩
      · rw [mem_firstDedup, mem_vendors_iff]
        intro hnil
        rw [hnil] at h2
        simp at h2
      · exact (subscriptionFor_some_iff receipts v _).mpr ⟨h2, hlik, rfl⟩
  · intro s hs
    rcases (hres s).mp hs with ⟨k, _, hk⟩
    rcases (subscriptionFor_some_iff receipts k s).mp hk with ⟨_, _, rfl⟩
    exact ⟨rfl, rfl⟩
  · intro hstore
    have hr : receipts = subExample := hstore
    show detect_recurring_subscriptions store today uid = [subExampleEntry]
    have hr' : _fetch_receipts store uid
        (datesOnly (some (dateStr (today - 90))) (some (dateStr today)))
          = subExample := hstore
    simp only [detect_recurring_subscriptions, hr']
    have hkeys : firstDedup ((vendorTxPairs subExample).map Prod.fst)
        = ["A"] := by decide
    rw [hkeys]
    have htxs : txsOf subExample "A" = [⟨0, 100⟩, ⟨30, 102⟩] := by decide
    have hsub : subscriptionFor subExample "A" = some (subEntry subExample "A") := by
      refine (subscriptionFor_some_iff subExample "A" _).mpr ⟨?_, ?_, rfl⟩
      · rw [htxs]; simp
      · rw [htxs]
        show isLikelySubscription [⟨0, 100⟩, ⟨30, 102⟩] = true
        have hsorted : stableSort (fun a b : Tx => decide (a.date ≤ b.date))
            [⟨0, 100⟩, ⟨30, 102⟩] = [⟨0, 100⟩, ⟨30, 102⟩] := by decide
        simp only [isLikelySubscription, hsorted]
        norm_num [dayGaps, sampleVar, mean, sqrtLt]
    have hentry : subEntry subExample "A" = subExampleEntry := by
      have hsorted : stableSort (fun a b : Tx => decide (a.date ≤ b.date))
          [⟨0, 100⟩, ⟨30, 102⟩] = [⟨0, 100⟩, ⟨30, 102⟩] := by decide
      simp only [subEntry, htxs, hsorted, subExampleEntry,
        Subscription.mk.injEq]
      norm_num [dayGaps, mean, pyInt]
    rw [List.filterMap_cons, hsub, hentry]
    rfl

/-- Counterexample for C5: three equal charges at days 0, 31, 63 give a
mean interval of `31.5`; the code's `next_expected_charge` is
`63 + int(31.5) = 94`, whereas the claim's `round(31.5)` gives `95`. -/
theorem recurring_subscriptions_counterexample :
    (detect_recurring_subscriptions storeSub 63 "u1").map
        (fun s => (s.average_interval_days, s.last_charge,
          s.next_expected_charge))
      = [(63/2, 63, 94)]
    ∧ nextExpectedSpec 63 (63/2) = 95 := by
  constructor
  · have hr : _fetch_receipts storeSub "u1"
        (datesOnly (some (dateStr ((63 : ℤ) - 90))) (some (dateStr 63)))
          = storeSub "u1" := rfl
    show (detect_recurring_subscriptions storeSub 63 "u1").map _ = _
    simp only [detect_recurring_subscriptions, hr]
    have hkeys : firstDedup ((vendorTxPairs (storeSub "u1")).map Prod.fst)
        = ["V"] := by decide
    rw [hkeys]
    have htxs : txsOf (storeSub "u1") "V"
        = [⟨0, 100⟩, ⟨31, 100⟩, ⟨63, 100⟩] := by decide
    have hsorted : stableSort (fun a b : Tx => decide (a.date ≤ b.date))
        (txsOf (storeSub "u1") "V")
          = [⟨0, 100⟩, ⟨31, 100⟩, ⟨63, 100⟩] := by decide
    have hsub : subscriptionFor (storeSub "u1") "V"
        = some (subEntry (storeSub "u1") "V") := by
      refine (subscriptionFor_some_iff _ "V" _).mpr ⟨?_, ?_, rfl⟩
      · rw [htxs]; simp
      · simp only [isLikelySubscription, hsorted]
        norm_num [dayGaps, sampleVar, mean, sqrtLt]
    have hentry : (subEntry (storeSub "u1") "V").average_interval_days = 63/2
        ∧ (subEntry (storeSub "u1") "V").last_charge = 63
        ∧ (subEntry (storeSub "u1") "V").next_expected_charge = 94 := by
      simp only [subEntry, hsorted]
      norm_num [dayGaps, mean, pyInt]
    rw [List.filterMap_cons, hsub]
    simp [hentry.1, hentry.2.1, hentry.2.2]
  · show (63 : ℤ) + pyRound (63/2) = 65 + 30
    norm_num [pyRound]

/-- Witness for C5: the spec's two-receipt example, run through the
amended theorem. -/
theorem recurring_subscriptions_witness :
    detect_recurring_subscriptions storeSubEx 90 "u1" = [subExampleEntry] :=
  (recurring_subscriptions_correct storeSubEx 90 "u1").2.2 rfl

/-! ## C7 -/

theorem quantiles100_length (data : List ℚ) :
    (quantiles100 data).length = 99 := by
  simp [quantiles100]

/-- An in-range percentile lookup succeeds and the item computation
reduces to `oppVal`. -/
theorem oppForItem_eq_ok (pt : ℤ) (h1 : 1 ≤ pt) (h99 : pt ≤ 99)
    (key : String) (pd : List PriceObs) :
    oppForItem pt key pd = .ok (oppVal pt key pd) := by
  simp only [oppForItem, oppVal]
  by_cases h3 : pd.length < 3
  · rw [if_pos h3, if_pos h3]
  · rw [if_neg h3, if_neg h3]
    have hidx : pyIndex (quantiles100 (pd.map (·.price))) (pt - 1)
        = .ok ((quantiles100 (pd.map (·.price))).getD (pt - 1).toNat 0) := by
      have hlen := quantiles100_length (pd.map (·.price))
      simp only [pyIndex, hlen]
      rw [if_pos (by constructor <;> omega)]
    rw [hidx]
    dsimp only
    split_ifs <;> rfl

/-- With an in-range percentile, the item loop never raises: it
collects exactly the `oppVal` entries of its keys, in order. -/
theorem collectOpps_eq_ok (pt : ℤ) (h1 : 1 ≤ pt) (h99 : pt ≤ 99)
    (receipts : List Receipt) (ks : List String) :
    collectOpps pt receipts ks =
      .ok (ks.filterMap (fun k => oppVal pt k (obsOf receipts k))) := by
  induction ks with
  | nil => rfl
  | cons k ks ih =>
    simp only [collectOpps, oppForItem_eq_ok pt h1 h99, ih,
      List.filterMap_cons]
    cases oppVal pt k (obsOf receipts k) <;> rfl

/-- `oppVal` characterised. -/
theorem oppVal_some_iff (pt : ℤ) (key : String) (pd : List PriceObs)
    (opp : SavingsOpportunity) :
    oppVal pt key pd = some opp ↔
      3 ≤ pd.length ∧
      pd.filter (fun p =>
        (quantiles100 (pd.map (·.price))).getD (pt - 1).toNat 0 < p.price)
          ≠ [] ∧
      opp = { item := key
              average_price := mean (pd.map (·.price))
              lowest_price := pyMin (pd.map (·.price))
              highest_price := pyMax (pd.map (·.price))
              threshold_price :=
                (quantiles100 (pd.map (·.price))).getD (pt - 1).toNat 0
              potential_savings_per_purchase :=
                mean ((pd.filter (fun p =>
                  (quantiles100 (pd.map (·.price))).getD (pt - 1).toNat 0
                    < p.price)).map (·.price)) - mean (pd.map (·.price))
              high_price_vendors :=
                firstDedup ((pd.filter (fun p =>
                  (quantiles100 (pd.map (·.price))).getD (pt - 1).toNat 0
                    < p.price)).filterMap (·.vendor)) } := by
  simp only [oppVal]
  by_cases h3 : pd.length < 3
  · rw [if_pos h3]
    constructor
    · intro h; exact absurd h (by simp)
    · rintro ⟨h, _⟩; omega
  · rw [if_neg h3]
    by_cases hh : pd.filter (fun p =>
        (quantiles100 (pd.map (·.price))).getD (pt - 1).toNat 0 < p.price)
          = []
    · rw [if_pos hh]
      constructor
      · intro h; exact absurd h (by simp)
      · rintro ⟨_, hne, _⟩; exact absurd hh hne
    · rw [if_neg hh]
      constructor
      · intro h
        exact ⟨by omega, hh, (Option.some_inj.mp h).symm⟩
      · rintro ⟨_, _, rfl⟩; rfl

/-- C7 (amended): for every `percentile_threshold` in `1..99` (NOT
`1..100`: `statistics.quantiles(n=100)` returns only 99 cut points, so
100 raises `IndexError`, see the counterexample), the function returns
without raising; every reported opportunity has at least 3 price
observations, its threshold is the requested cut point of those prices,
its flagged observations are exactly those strictly above the threshold
(and are non-empty), and its saving is `mean(flagged) − mean(all)`;
conversely every item name with at least 3 observations and a non-empty
flagged set is reported. -/
theorem savings_opportunities_correct (store : Store) (today : ℤ)
    (category uid : String) (pt : ℤ) (h1 : 1 ≤ pt) (h99 : pt ≤ 99) :
    let receipts := _fetch_receipts store uid
      { start_date := some (dateStr (today - 60)),
        end_date := some (dateStr today), category := some category }
    ∃ res : SavingsResult,
      find_savings_opportunities store today category pt uid = .ok res ∧
      res.category = category ∧
      res.total_opportunities = res.opportunities.length ∧
      (∀ opp ∈ res.opportunities,
        3 ≤ (obsOf receipts opp.item).length ∧
        opp.threshold_price = (quantiles100
          ((obsOf receipts opp.item).map (·.price))).getD (pt - 1).toNat 0 ∧
        opp.potential_savings_per_purchase =
          mean (((obsOf receipts opp.item).filter (fun p =>
            opp.threshold_price < p.price)).map (·.price))
            - mean ((obsOf receipts opp.item).map (·.price)) ∧
        (obsOf receipts opp.item).filter (fun p =>
          opp.threshold_price < p.price) ≠ []) ∧
      (∀ key ∈ (itemObsPairs receipts).map Prod.fst,
        3 ≤ (obsOf receipts key).length →
        (obsOf receipts key).filter (fun p =>
          (quantiles100 ((obsOf receipts key).map (·.price))).getD
            (pt - 1).toNat 0 < p.price) ≠ [] →
        ∃ opp ∈ res.opportunities, opp.item = key) := by
  intro receipts
  refine ⟨savingsResultVal pt category receipts, ?_, rfl, ?_, ?_, ?_⟩
  · show (collectOpps pt receipts _ >>= _) = _
    rw [collectOpps_eq_ok pt h1 h99]
    rfl
  · exact (stableSort_length _ _).symm
  · intro opp hopp
    rcases List.mem_filterMap.mp ((mem_stableSort _ _ _).mp hopp)
      with ⟨k, _, hk⟩
    rcases (oppVal_some_iff pt k (obsOf receipts k) opp).mp hk
      with ⟨h3, hne, rfl⟩
    exact ⟨h3, rfl, rfl, hne⟩
  · intro key hkey h3 hne
    refine ⟨{ item := key
              average_price := mean ((obsOf receipts key).map (·.price))
              lowest_price := pyMin ((obsOf receipts key).map (·.price))
              highest_price := pyMax ((obsOf receipts key).map (·.price))
              threshold_price := (quantiles100
                ((obsOf receipts key).map (·.price))).getD (pt - 1).toNat 0
              potential_savings_per_purchase :=
                mean (((obsOf receipts key).filter (fun p =>
                  (quantiles100 ((obsOf receipts key).map (·.price))).getD
                    (pt - 1).toNat 0 < p.price)).map (·.price))
                  - mean ((obsOf receipts key).map (·.price))
              high_price_vendors :=
                firstDedup (((obsOf receipts key).filter (fun p =>
                  (quantiles100 ((obsOf receipts key).map (·.price))).getD
                    (pt - 1).toNat 0 < p.price)).filterMap (·.vendor)) },
      ?_, rfl⟩
    simp only [savingsResultVal]
    rw [mem_stableSort]
    apply List.mem_filterMap.mpr
    refine ⟨key, (mem_firstDedup key _).mpr hkey, ?_⟩
    exact (oppVal_some_iff pt key (obsOf receipts key) _).mpr ⟨h3, hne, rfl⟩

/-- Counterexample for C7: `percentile_threshold = 100` is inside the
claim's "valid" range `1..100`, yet with three price observations the
lookup `quantiles(prices, n=100)[99]` is out of range (only 99 cut
points exist) and the call raises `IndexError` instead of returning. -/
theorem savings_opportunities_counterexample :
    find_savings_opportunities storeSav 60 "g" 100 "u1"
      = .error "IndexError: list index out of range" := rfl

/-- Witness for C7: the same store at the 75th percentile returns
without raising. -/
theorem savings_opportunities_witness :
    ∃ res : SavingsResult,
      find_savings_opportunities storeSav 60 "g" 75 "u1" = .ok res ∧
      res.category = "g" ∧
      res.total_opportunities = res.opportunities.length ∧
      (∀ opp ∈ res.opportunities,
        3 ≤ (obsOf (_fetch_receipts storeSav "u1"
          { start_date := some (dateStr ((60 : ℤ) - 60)),
            end_date := some (dateStr (60 : ℤ)),
            category := some "g" }) opp.item).length ∧
        opp.threshold_price = (quantiles100
          ((obsOf (_fetch_receipts storeSav "u1"
            { start_date := some (dateStr ((60 : ℤ) - 60)),
              end_date := some (dateStr (60 : ℤ)),
              category := some "g" }) opp.item).map (·.price))).getD
                ((75 : ℤ) - 1).toNat 0 ∧
        opp.potential_savings_per_purchase =
          mean (((obsOf (_fetch_receipts storeSav "u1"
            { start_date := some (dateStr ((60 : ℤ) - 60)),
              end_date := some (dateStr (60 : ℤ)),
              category := some "g" }) opp.item).filter (fun p =>
            opp.threshold_price < p.price)).map (·.price))
            - mean ((obsOf (_fetch_receipts storeSav "u1"
              { start_date := some (dateStr ((60 : ℤ) - 60)),
                end_date := some (dateStr (60 : ℤ)),
                category := some "g" }) opp.item).map (·.price)) ∧
        (obsOf (_fetch_receipts storeSav "u1"
          { start_date := some (dateStr ((60 : ℤ) - 60)),
            end_date := some (dateStr (60 : ℤ)),
            category := some "g" }) opp.item).filter (fun p =>
          opp.threshold_price < p.price) ≠ []) ∧
      (∀ key ∈ (itemObsPairs (_fetch_receipts storeSav "u1"
          { start_date := some (dateStr ((60 : ℤ) - 60)),
            end_date := some (dateStr (60 : ℤ)),
            category := some "g" })).map Prod.fst,
        3 ≤ (obsOf (_fetch_receipts storeSav "u1"
          { start_date := some (dateStr ((60 : ℤ) - 60)),
            end_date := some (dateStr (60 : ℤ)),
            category := some "g" }) key).length →
        (obsOf (_fetch_receipts storeSav "u1"
          { start_date := some (dateStr ((60 : ℤ) - 60)),
            end_date := some (dateStr (60 : ℤ)),
            category := some "g" }) key).filter (fun p =>
          (quantiles100 ((obsOf (_fetch_receipts storeSav "u1"
            { start_date := some (dateStr ((60 : ℤ) - 60)),
              end_date := some (dateStr (60 : ℤ)),
              category := some "g" }) key).map (·.price))).getD
                ((75 : ℤ) - 1).toNat 0 < p.price) ≠ [] →
        ∃ opp ∈ res.opportunities, opp.item = key) :=
  savings_opportunities_correct storeSav 60 "g" "u1" 75
    (by decide) (by decide)

/-! ## C1 -/

/-- Looking up a key in a list from which it was filtered out finds
nothing. -/
theorem lookup_filter_ne (args : Args) (k : String) :
    (args.filter (fun p => p.1 ≠ k)).lookup k = none := by
  induction args with
  | nil => rfl
  | cons p ps ih =>
    by_cases h : p.1 = k
    · simp only [List.filter_cons, h]
      simpa using ih
    · have hc : (decide (p.1 ≠ k)) = true := by simpa using h
      have hb : (k == p.1) = false := beq_eq_false_iff_ne.mpr (Ne.symm h)
      simp only [List.filter_cons, hc, if_true, List.lookup, hb]
      exact ih

theorem lookup_withUserId (args : Args) (uid : String) :
    (withUserId args uid).lookup "user_id" = some (JVal.s uid) := by
  simp only [withUserId]
  induction args with
  | nil => rfl
  | cons p ps ih =>
    by_cases h : p.1 = "user_id"
    · simp only [List.filter_cons, h]
      simpa using ih
    · have hc : (decide (p.1 ≠ "user_id")) = true := by simpa using h
      have hb : ("user_id" == p.1) = false :=
        beq_eq_false_iff_ne.mpr (Ne.symm h)
      simp only [List.filter_cons, hc, if_true, List.cons_append,
        List.lookup, hb]
      exact ih

/-- A logged argument mapping never carries `user_id`. -/
theorem lookup_logArgs (args : Args) :
    (logArgs args).lookup "user_id" = none :=
  lookup_filter_ne args "user_id"

/-- `processPart` on a call whose tool is not registered. -/
theorem processPart_notFound (tb : Toolbox) (uid name : String) (args : Args)
    (h : tb name = none) :
    processPart tb uid (.functionCall name args) =
      ⟨[.functionResponse name false
        ("Tool '" ++ name ++ "' not found.")], [], []⟩ := by
  simp [processPart, h]

/-- `processPart` on a call whose tool returns successfully. -/
theorem processPart_ok (tb : Toolbox) (uid name : String) (args : Args)
    (f : ToolFn) (v : JVal) (h : tb name = some f)
    (hv : f (withUserId args uid) = .ok v) :
    processPart tb uid (.functionCall name args) =
      ⟨[.functionResponse name true (serialize v)],
       [⟨name, logArgs (withUserId args uid), v⟩],
       [(name, withUserId args uid)]⟩ := by
  simp [processPart, h, hv]

/-- `processPart` on a call whose tool raises: the exception becomes
that one call's error result, nothing is logged, nothing propagates. -/
theorem processPart_error (tb : Toolbox) (uid name : String) (args : Args)
    (f : ToolFn) (msg : String) (h : tb name = some f)
    (hmsg : f (withUserId args uid) = .error msg) :
    processPart tb uid (.functionCall name args) =
      ⟨[.functionResponse name false msg], [],
       [(name, withUserId args uid)]⟩ := by
  simp [processPart, h, hmsg]

theorem processPart_user_id (tb : Toolbox) (uid : String) (p : Part) :
    (∀ inv ∈ (processPart tb uid p).invocations,
      inv.2.lookup "user_id" = some (JVal.s uid))
    ∧ ∀ e ∈ (processPart tb uid p).log,
      e.args.lookup "user_id" = none := by
  cases p with
  | text s => simp [processPart]
  | functionResponse n ok pl => simp [processPart]
  | functionCall name args =>
    cases htb : tb name with
    | none =>
      rw [processPart_notFound tb uid name args htb]
      simp
    | some f =>
      cases hf : f (withUserId args uid) with
      | ok v =>
        rw [processPart_ok tb uid name args f v htb hf]
        constructor
        · intro inv hinv
          rcases List.mem_singleton.mp hinv with rfl
          exact lookup_withUserId args uid
        · intro e he
          rcases List.mem_singleton.mp he with rfl
          exact lookup_logArgs _
      | error msg =>
        rw [processPart_error tb uid name args f msg htb hf]
        constructor
        · intro inv hinv
          rcases List.mem_singleton.mp hinv with rfl
          exact lookup_withUserId args uid
        · intro e he
          exact absurd he (List.not_mem_nil e)

theorem processParts_user_id (tb : Toolbox) (uid : String) (ps : List Part) :
    (∀ inv ∈ (processParts tb uid ps).invocations,
      inv.2.lookup "user_id" = some (JVal.s uid))
    ∧ ∀ e ∈ (processParts tb uid ps).log,
      e.args.lookup "user_id" = none := by
  induction ps with
  | nil => simp [processParts]
  | cons p ps ih =>
    simp only [processParts, TurnOut.append]
    constructor
    · intro inv hinv
      rcases List.mem_append.mp hinv with h | h
      · exact (processPart_user_id tb uid p).1 inv h
      · exact ih.1 inv h
    · intro e he
      rcases List.mem_append.mp he with h | h
      · exact (processPart_user_id tb uid p).2 e h
      · exact ih.2 e h

theorem runLoop_user_id (model : Model) (tb : Toolbox) (uid : String) :
    ∀ (n : ℕ) (hist : List Content) (prev : Response),
    (∀ inv ∈ (runLoop model tb uid n hist prev).invocations,
      inv.2.lookup "user_id" = some (JVal.s uid))
    ∧ ∀ e ∈ (runLoop model tb uid n hist prev).log,
      e.args.lookup "user_id" = none := by
  intro n
  induction n with
  | zero => intro hist prev; simp [runLoop]
  | succ n ih =>
    intro hist prev
    simp only [runLoop]
    by_cases hstop : stopCheck (model hist) = true
    · simp [hstop]
    · rw [if_neg hstop]
      constructor
      · intro inv hinv
        rcases List.mem_append.mp hinv with h | h
        · exact (processParts_user_id tb uid _).1 inv h
        · exact (ih _ _).1 inv h
      · intro e he
        rcases List.mem_append.mp he with h | h
        · exact (processParts_user_id tb uid _).2 e h
        · exact (ih _ _).2 e h

/-- C1: in every `process_query` run, every tool invocation is made with
the caller's `user_id` — whatever `user_id` the model supplied is
overridden — and every execution-log entry's recorded arguments exclude
the `user_id` field. -/
theorem user_id_injection (model : Model) (tb : Toolbox) (query uid : String) :
    (∀ inv ∈ (process_query model tb query uid).invocations,
      inv.2.lookup "user_id" = some (JVal.s uid))
    ∧ ∀ e ∈ (process_query model tb query uid).log,
      e.args.lookup "user_id" = none :=
  runLoop_user_id model tb uid 5 (initHistory uid query) ⟨[]⟩

/-- Witness for C1: the model supplies `user_id = "evil"`; the tool is
invoked with `user_id = "u7"` and the log entry has no `user_id`. -/
theorem user_id_injection_witness :
    ("t", withUserId [("user_id", JVal.s "evil"), ("a", JVal.n 1)] "u7")
        ∈ (process_query mAlways tbW "q" "u7").invocations
    ∧ (withUserId [("user_id", JVal.s "evil"), ("a", JVal.n 1)] "u7").lookup
        "user_id" = some (JVal.s "u7")
    ∧ ∀ e ∈ (process_query mAlways tbW "q" "u7").log,
        e.args.lookup "user_id" = none := by
  have hmem : ("t", withUserId [("user_id", JVal.s "evil"),
      ("a", JVal.n 1)] "u7") ∈ (process_query mAlways tbW "q" "u7").invocations
    := by decide
  exact ⟨hmem, (user_id_injection mAlways tbW "q" "u7").1 _ hmem,
    (user_id_injection mAlways tbW "q" "u7").2⟩

/-! ## C2 -/

theorem runLoop_calls_le (model : Model) (tb : Toolbox) (uid : String) :
    ∀ (n : ℕ) (hist : List Content) (prev : Response),
      (runLoop model tb uid n hist prev).calls ≤ n := by
  intro n
  induction n with
  | zero => intro hist prev; simp [runLoop]
  | succ n ih =>
    intro hist prev
    simp only [runLoop]
    by_cases hstop : stopCheck (model hist) = true
    · simp [hstop]
    · rw [if_neg hstop]
      have := ih (hist ++ [turnContentOf (model hist),
        ⟨"tool", (processParts tb uid
          (turnContentOf (model hist)).parts).responses⟩]) (model hist)
      simp only
      omega

theorem runLoop_calls_of_noStop (model : Model) (tb : Toolbox) (uid : String)
    (hm : ∀ h, stopCheck (model h) = false) :
    ∀ (n : ℕ) (hist : List Content) (prev : Response),
      (runLoop model tb uid n hist prev).calls = n := by
  intro n
  induction n with
  | zero => intro hist prev; simp [runLoop]
  | succ n ih =>
    intro hist prev
    simp only [runLoop]
    rw [if_neg (by simp [hm hist])]
    simp only
    rw [ih]

/-- C2: `process_query` makes at most 5 model round-trips, whatever the
model and tools do (the loop is a total function of its fuel — it always
terminates with an answer); against a model that requests a valid tool
call on every turn it makes exactly 5; and when the final response has
no candidates the answer is the explicit fallback string rather than an
error. -/
theorem turn_budget (model : Model) (tb : Toolbox) (query uid : String) :
    (process_query model tb query uid).calls ≤ 5
    ∧ ((process_query model tb query uid).lastResponse.candidates = [] →
        (process_query model tb query uid).answer = "No response from model.")
    ∧ ((∀ h, stopCheck (model h) = false) →
        (process_query model tb query uid).calls = 5) := by
  refine ⟨runLoop_calls_le model tb uid 5 _ _, ?_, ?_⟩
  · intro h
    have h' : (runLoop model tb uid 5 (initHistory uid query)
        ⟨[]⟩).last.candidates = [] := h
    show (if (runLoop model tb uid 5 (initHistory uid query) ⟨[]⟩).last.candidates
        = [] then "No response from model." else _) = _
    rw [if_pos h']
  · intro hm
    exact runLoop_calls_of_noStop model tb uid hm 5 _ _

/-- Witness for C2: the always-tool-calling model stops after exactly 5
round-trips, and its final answer is a defined string. -/
theorem turn_budget_witness :
    (process_query mAlways tbW "q" "u7").calls = 5 :=
  (turn_budget mAlways tbW "q" "u7").2.2 (fun _ => rfl)

/-! ## C3 -/

theorem TurnOut.append_assoc (a b c : TurnOut) :
    (a.append b).append c = a.append (b.append c) := by
  simp [TurnOut.append, List.append_assoc]

theorem TurnOut.nil_append (a : TurnOut) :
    (TurnOut.mk [] [] []).append a = a := by
  simp [TurnOut.append]

theorem processParts_append (tb : Toolbox) (uid : String)
    (ps qs : List Part) :
    processParts tb uid (ps ++ qs) =
      (processParts tb uid ps).append (processParts tb uid qs) := by
  induction ps with
  | nil =>
    simp only [List.nil_append, processParts]
    rw [TurnOut.nil_append]
  | cons p ps ih =>
    simp only [List.cons_append, processParts, List.append_eq, ih,
      TurnOut.append_assoc]

theorem processPart_responses_length (tb : Toolbox) (uid : String)
    (p : Part) :
    (processPart tb uid p).responses.length =
      (match p with | .functionCall _ _ => 1 | _ => 0) := by
  cases p with
  | functionCall name args =>
    cases htb : tb name with
    | none => rw [processPart_notFound tb uid name args htb]; rfl
    | some f =>
      cases hf : f (withUserId args uid) with
      | ok v => rw [processPart_ok tb uid name args f v htb hf]; rfl
      | error msg =>
        rw [processPart_error tb uid name args f msg htb hf]; rfl
  | text s => rfl
  | functionResponse n ok pl => rfl

/-- C3: within one model turn (a) tool results decompose per call, in
the listed order, so the turn's processing is the concatenation of its
parts' processing; (b) a name absent from the registry yields that one
call's `"tool not found"` error result with no invocation, and — by (a)
— every other listed call still executes; (c) an exception inside a
found tool becomes that one call's error result (the tool was invoked,
nothing is logged, nothing propagates — the model embeds a raised
exception as `Except.error`, and `processPart` is total on it); and (d)
every listed tool call, and only those, receives exactly one result
part. -/
theorem per_call_error_isolation (tb : Toolbox) (uid : String) :
    (∀ ps qs : List Part, processParts tb uid (ps ++ qs)
        = (processParts tb uid ps).append (processParts tb uid qs))
    ∧ (∀ (name : String) (args : Args), tb name = none →
        processPart tb uid (.functionCall name args) =
          ⟨[.functionResponse name false
            ("Tool '" ++ name ++ "' not found.")], [], []⟩)
    ∧ (∀ (name : String) (args : Args) (f : ToolFn) (msg : String),
        tb name = some f → f (withUserId args uid) = .error msg →
        processPart tb uid (.functionCall name args) =
          ⟨[.functionResponse name false msg], [],
           [(name, withUserId args uid)]⟩)
    ∧ (∀ ps : List Part, (processParts tb uid ps).responses.length =
        (ps.filter (fun p => match p with
          | .functionCall _ _ => true | _ => false)).length)
    ∧ (∀ ps : List Part, (processParts tb uid ps).invocations =
        ps.flatMap (fun p => (processPart tb uid p).invocations)) := by
  refine ⟨processParts_append tb uid,
    processPart_notFound tb uid, ?_, ?_, ?_⟩
  · intro name args f msg h hmsg
    exact processPart_error tb uid name args f msg h hmsg
  · intro ps
    induction ps with
    | nil => rfl
    | cons p ps ih =>
      simp only [processParts, TurnOut.append, List.length_append,
        List.filter_cons, ih, processPart_responses_length]
      cases p <;> simp <;> omega
  · intro ps
    induction ps with
    | nil => rfl
    | cons p ps ih =>
      simp only [processParts, TurnOut.append, List.flatMap_cons, ih]

/-- Witness for C3: a turn listing a missing tool, a raising tool and a
working tool produces exactly three per-call results — error, error,
success — with the two failures isolated to their own calls. -/
theorem per_call_error_isolation_witness :
    processParts tbW "u7" [.functionCall "nope" [],
        .functionCall "boom" [], .functionCall "t" []] =
      ⟨[.functionResponse "nope" false "Tool 'nope' not found.",
        .functionResponse "boom" false "ValueError: boom",
        .functionResponse "t" true (serialize (.b true))],
       [⟨"t", [], .b true⟩],
       [("boom", withUserId [] "u7"), ("t", withUserId [] "u7")]⟩ := by
  have h1 := (per_call_error_isolation tbW "u7").1
    [Part.functionCall "nope" []]
    [Part.functionCall "boom" [], Part.functionCall "t" []]
  have h2 := (per_call_error_isolation tbW "u7").2.1 "nope" [] rfl
  rw [show [Part.functionCall "nope" [], Part.functionCall "boom" [],
      Part.functionCall "t" []] = [Part.functionCall "nope" []] ++
      [Part.functionCall "boom" [], Part.functionCall "t" []] from rfl,
    h1,
    show processParts tbW "u7" [Part.functionCall "nope" []] =
      (processPart tbW "u7" (Part.functionCall "nope" [])).append
        (processParts tbW "u7" []) from rfl,
    h2]
  decide

/-! ## C4 -/

theorem runLoop_broke_iff (model : Model) (tb : Toolbox) (uid : String) :
    ∀ (n : ℕ) (hist : List Content) (prev : Response), 1 ≤ n →
      ((runLoop model tb uid n hist prev).brokeEarly = true ↔
        stopCheck (runLoop model tb uid n hist prev).last = true)
      ∧ ((runLoop model tb uid n hist prev).brokeEarly = false →
        (runLoop model tb uid n hist prev).calls = n) := by
  intro n
  induction n with
  | zero => intro hist prev h; omega
  | succ n ih =>
    intro hist prev _
    simp only [runLoop]
    by_cases hstop : stopCheck (model hist) = true
    · simp [hstop]
    · rw [if_neg hstop]
      cases n with
      | zero => simp [runLoop, hstop]
      | succ m =>
        have hrec := ih (hist ++ [turnContentOf (model hist),
          ⟨"tool", (processParts tb uid
            (turnContentOf (model hist)).parts).responses⟩])
          (model hist) (by omega)
        simp only at hrec ⊢
        constructor
        · exact hrec.1
        · intro h
          rw [hrec.2 h]

/-- Counterexample for C4: a model turn whose first part is text and
whose second part is a tool call CONTAINS a tool-call part, yet the
loop reaches FINAL after one round-trip with an empty log — the break
test at pipeline.py line 380 consults only `parts[0]`, so "FINAL exactly
when the turn contains no tool-call parts" fails. -/
theorem final_state_counterexample :
    (process_query mMixed tbW "q" "u1").brokeEarly = true
    ∧ (process_query mMixed tbW "q" "u1").calls = 1
    ∧ (process_query mMixed tbW "q" "u1").log = []
    ∧ Part.functionCall "t" [] ∈
        (turnContentOf (mMixed (initHistory "u1" "q"))).parts := by decide

/-- C4 (amended): the loop reaches FINAL before exhausting the budget
exactly when a model response fails the first-part test (no candidates,
no parts, or FIRST part not a function call) — equivalently, the run
broke early iff the final response fails that test, and otherwise the
budget of 5 was fully used; in particular, when the model's initial
response already fails the test (e.g. a model that never requests a
tool call), `process_query` reaches FINAL after exactly one round-trip
with an empty execution log. -/
theorem final_state_correct (model : Model) (tb : Toolbox)
    (query uid : String) :
    ((process_query model tb query uid).brokeEarly = true ↔
      stopCheck (process_query model tb query uid).lastResponse = true)
    ∧ ((process_query model tb query uid).brokeEarly = false →
        (process_query model tb query uid).calls = 5)
    ∧ (stopCheck (model (initHistory uid query)) = true →
        (process_query model tb query uid).calls = 1
        ∧ (process_query model tb query uid).log = []
        ∧ (process_query model tb query uid).brokeEarly = true) := by
  refine ⟨(runLoop_broke_iff model tb uid 5 _ _ (by omega)).1,
    (runLoop_broke_iff model tb uid 5 _ _ (by omega)).2, ?_⟩
  intro h
  have : runLoop model tb uid 5 (initHistory uid query) ⟨[]⟩ =
      ⟨initHistory uid query, model (initHistory uid query), [], [], 1, true⟩
    := by
    simp only [runLoop]
    rw [if_pos h]
  refine ⟨?_, ?_, ?_⟩
  · show (runLoop model tb uid 5 (initHistory uid query) ⟨[]⟩).calls = 1
    rw [this]
  · show (runLoop model tb uid 5 (initHistory uid query) ⟨[]⟩).log = []
    rw [this]
  · show (runLoop model tb uid 5 (initHistory uid query) ⟨[]⟩).brokeEarly
      = true
    rw [this]

/-- Witness for C4: a plain-text model reaches FINAL after exactly one
round-trip with an empty execution log. -/
theorem final_state_witness :
    (process_query mText tbW "q" "u1").calls = 1
    ∧ (process_query mText tbW "q" "u1").log = []
    ∧ (process_query mText tbW "q" "u1").brokeEarly = true :=
  (final_state_correct mText tbW "q" "u1").2.2 rfl

end WalletAgent
